import Mathlib

/-!
Verification of the Dino-Ventures wallet service core
(`src/services/walletService.js`) via a shallow embedding.

The database state (tables `users`, `wallets`, `ledger_entries`,
`idempotency_keys` of `db/migrations/001_schema.sql`) is a Lean structure;
`executeTransfer` is translated statement by statement from the source.
JavaScript `Number(bigint)` narrowing (IEEE-754 double, round to nearest,
ties to even) is modelled exactly by `jsNumber`; `BigInt` arithmetic is
exact `Int` arithmetic.  The catch/ROLLBACK wrapper is `runTransfer`.
A `journal` field records the order of the write statements issued inside
the transaction, so that ordering claims about the commit protocol are
statable.
-/

namespace DinoWallet

/-- Row of table `users`: id, username, user_type in {user, system}. -/
structure User where
  id : Nat
  username : String
  userType : String
deriving DecidableEq

/-- Row of table `wallets`: id, user_id, asset code (joined through
`asset_types`), cached balance (BIGINT). -/
structure Wallet where
  id : Nat
  userId : Nat
  assetCode : String
  balance : Int
deriving DecidableEq

/-- Values of the `entry_type` CHECK constraint of `ledger_entries`. -/
inductive EntryType where
  | DEBIT
  | CREDIT
deriving DecidableEq

/-- Row of table `ledger_entries`. -/
structure LedgerEntry where
  transactionId : String
  walletId : Nat
  entryType : EntryType
  amount : Int
  balanceAfter : Int
  description : String
  createdAt : Nat
deriving DecidableEq

/-- The `responseBody` object built at step 6 of `executeTransfer`. -/
structure ResponseBody where
  transactionId : String
  sourceWalletId : Nat
  destWalletId : Nat
  amount : Int
  newSourceBalance : Int
  newDestBalance : Int
  description : String
deriving DecidableEq

/-- Row of table `idempotency_keys`. -/
structure IdemRecord where
  key : String
  responseCode : Nat
  responseBody : ResponseBody
deriving DecidableEq

/-- One SQL write statement issued inside the transaction. -/
inductive WriteOp where
  | updateBalance (walletId : Nat) (newBalance : Int)
  | insertLedger (entry : LedgerEntry)
  | insertIdem (record : IdemRecord)
deriving DecidableEq

/-- The persistent database state.  `now` is the transaction timestamp
(Postgres `NOW()` is constant inside one transaction); `journal` records
committed write statements in issue order. -/
structure DB where
  users : List User
  wallets : List Wallet
  ledger : List LedgerEntry
  idempotencyKeys : List IdemRecord
  now : Nat
  journal : List WriteOp
deriving DecidableEq

/-- Bit length of a natural number, fuel-structured so the kernel can
evaluate it on literals. -/
def bitsAux : Nat → Nat → Nat
  | 0, _ => 0
  | _ + 1, 0 => 0
  | fuel + 1, n + 1 => bitsAux fuel ((n + 1) / 2) + 1

/-- Bit length: `bits 0 = 0`, `bits n = ⌊log₂ n⌋ + 1` for `n > 0`. -/
def bits (n : Nat) : Nat := bitsAux n n

/-- Round a natural number to the nearest IEEE-754 double-representable
value (53-bit mantissa), ties to even — the rounding performed by the
JavaScript `Number(bigint)` conversion on the magnitude. -/
def roundToDouble (n : Nat) : Nat :=
  if n ≤ 2 ^ 53 then n
  else
    let e := bits n - 53
    let q := n / 2 ^ e
    let r := n % 2 ^ e
    let half := 2 ^ (e - 1)
    let q1 := if half < r || (r == half && q % 2 == 1) then q + 1 else q
    q1 * 2 ^ e

/-- JavaScript `Number(bigint)`: exact below 2⁵³, round to nearest
representable double (ties to even) above.  Faithful for every |n| < 2⁹⁷¹
(beyond double overflow the JS result would be ±Infinity, far outside any
64-bit balance). -/
def jsNumber (n : Int) : Int :=
  if n < 0 then -(roundToDouble n.natAbs : Int) else (roundToDouble n.natAbs : Int)

/-- Model of `resolveWalletId` (walletService.js lines 18–32): first wallet row for
the user/asset pair, 404 otherwise. -/
inductive TransferError where
  | walletNotFound (userId : Nat) (assetCode : String)
  | treasuryMissing (assetCode : String)
  | walletRowMissing
  | insufficientBalance (available requested : Int)
deriving DecidableEq

/-- The `err.statusCode` attached to each error object in the source. -/
def TransferError.statusCode : TransferError → Nat
  | .walletNotFound _ _ => 404
  | .treasuryMissing _ => 500
  | .walletRowMissing => 404
  | .insufficientBalance _ _ => 400

def resolveWalletId (db : DB) (userId : Nat) (assetCode : String) :
    Except TransferError Nat :=
  match db.wallets.find? (fun w => w.userId == userId && w.assetCode == assetCode) with
  | some w => .ok w.id
  | none => .error (.walletNotFound userId assetCode)

/-- Join condition on `u.user_type` being the system kind, used by `resolveTreasuryWalletId`. -/
def isSystemUser (db : DB) (userId : Nat) : Bool :=
  db.users.any (fun u => u.id == userId && u.userType == "system")

/-- Model of `resolveTreasuryWalletId` (lines 37–53): first system-owned wallet for
the asset (`LIMIT 1`), 500 otherwise. -/
def resolveTreasuryWalletId (db : DB) (assetCode : String) :
    Except TransferError Nat :=
  match db.wallets.find? (fun w => isSystemUser db w.userId && w.assetCode == assetCode) with
  | some w => .ok w.id
  | none => .error (.treasuryMissing assetCode)

/-- The three flows of the public API (`topUp`, `bonus`, `spend`). -/
inductive Flow where
  | topup
  | bonus
  | spend
deriving DecidableEq

/-- Direction selection (lines 86–100): topup and bonus move treasury →
user, spend moves user → treasury. -/
def Flow.direction (flow : Flow) (userWalletId treasuryWalletId : Nat) : Nat × Nat :=
  match flow with
  | .topup => (treasuryWalletId, userWalletId)
  | .bonus => (treasuryWalletId, userWalletId)
  | .spend => (userWalletId, treasuryWalletId)

/-- The flow-specific description template strings of lines 90, 94, 99. -/
def Flow.describe (flow : Flow) (amount : Int) (assetCode : String) (userId : Nat) : String :=
  match flow with
  | .topup => "Top-up: " ++ toString amount ++ " " ++ assetCode ++ " purchased by user " ++ toString userId
  | .bonus => "Bonus: " ++ toString amount ++ " " ++ assetCode ++ " granted to user " ++ toString userId
  | .spend => "Spend: " ++ toString amount ++ " " ++ assetCode ++ " spent by user " ++ toString userId

/-- JavaScript truthiness of the `idempotencyKey` argument: `undefined`
(absent) and the empty string are falsy. -/
def truthyKey : Option String → Bool
  | none => false
  | some s => !(s == "")

/-- Query `SELECT response_code, response_body FROM idempotency_keys WHERE key = $1`. -/
def lookupIdem (db : DB) (key : String) : Option IdemRecord :=
  db.idempotencyKeys.find? (fun r => r.key == key)

/-- Statement `UPDATE wallets SET balance = $1 WHERE id = $2`, journalled. -/
def updateBalance (db : DB) (walletId : Nat) (newBalance : Int) : DB :=
  { db with
    wallets := db.wallets.map (fun w => if w.id == walletId then { w with balance := newBalance } else w)
    journal := db.journal ++ [.updateBalance walletId newBalance] }

/-- Statement `INSERT INTO ledger_entries ...`, journalled (append-only table). -/
def insertLedger (db : DB) (e : LedgerEntry) : DB :=
  { db with
    ledger := db.ledger ++ [e]
    journal := db.journal ++ [.insertLedger e] }

/-- Statement `INSERT INTO idempotency_keys ...`, journalled. -/
def insertIdem (db : DB) (r : IdemRecord) : DB :=
  { db with
    idempotencyKeys := db.idempotencyKeys ++ [r]
    journal := db.journal ++ [.insertIdem r] }

/-- Lookup of a wallet row by primary key. -/
def findWallet (db : DB) (walletId : Nat) : Option Wallet :=
  db.wallets.find? (fun w => w.id == walletId)

/-- The cached balance of a wallet, when the row exists. -/
def balanceOf (db : DB) (walletId : Nat) : Option Int :=
  (findWallet db walletId).map (fun w => w.balance)

/-- Model of `[sourceWalletId, destWalletId].sort((a, b) => a - b)` (line 103): the
two wallet ids in ascending order — the lock-acquisition order of the
`SELECT ... ORDER BY id FOR UPDATE`. -/
def lockOrder (a b : Nat) : List Nat :=
  if a ≤ b then [a, b] else [b, a]

/-- The request record received by `executeTransfer`. -/
structure TransferRequest where
  flow : Flow
  userId : Nat
  assetCode : String
  amount : Int
  idempotencyKey : Option String
deriving DecidableEq

/-- The value returned by `executeTransfer`. -/
structure TransferResult where
  idempotent : Bool
  statusCode : Nat
  body : ResponseBody
deriving DecidableEq

/-- The replay return value of the idempotency hit branch (lines 71–78). -/
def replayResult (r : IdemRecord) : TransferResult :=
  { idempotent := true, statusCode := r.responseCode, body := r.responseBody }

/-- Model of `executeTransfer` (walletService.js lines 59–189), the body of the
`BEGIN`/`COMMIT` transaction.  `txnId` stands for the `uuidv4()` draw of
line 145.  `.error e` means the transaction threw — the catch clause
(`ROLLBACK`) is modelled by `runTransfer` below. -/
def executeTransfer (req : TransferRequest) (txnId : String) (db : DB) :
    Except TransferError (TransferResult × DB) :=
  match (if truthyKey req.idempotencyKey then lookupIdem db (req.idempotencyKey.getD "") else none) with
  | some recd => .ok (replayResult recd, db)
  | none =>
    match resolveWalletId db req.userId req.assetCode with
    | .error e => .error e
    | .ok userWalletId =>
      match resolveTreasuryWalletId db req.assetCode with
      | .error e => .error e
      | .ok treasuryWalletId =>
        let dir := req.flow.direction userWalletId treasuryWalletId
        let sourceWalletId := dir.1
        let destWalletId := dir.2
        let description := req.flow.describe req.amount req.assetCode req.userId
        let walletIds := lockOrder sourceWalletId destWalletId
        let lockedWallets := db.wallets.filter (fun w => walletIds.contains w.id)
        match lockedWallets.find? (fun w => w.id == sourceWalletId),
              lockedWallets.find? (fun w => w.id == destWalletId) with
        | some sourceWallet, some destWallet =>
          let sourceBalance := sourceWallet.balance
          let transferAmount := req.amount
          if sourceBalance < transferAmount then
            .error (.insufficientBalance sourceBalance transferAmount)
          else
            let newSourceBalance := jsNumber (sourceBalance - transferAmount)
            let newDestBalance := jsNumber (destWallet.balance + transferAmount)
            let db1 := updateBalance db sourceWalletId newSourceBalance
            let db2 := updateBalance db1 destWalletId newDestBalance
            let debitEntry : LedgerEntry :=
              { transactionId := txnId, walletId := sourceWalletId, entryType := .DEBIT,
                amount := req.amount, balanceAfter := newSourceBalance,
                description := description, createdAt := db.now }
            let creditEntry : LedgerEntry :=
              { transactionId := txnId, walletId := destWalletId, entryType := .CREDIT,
                amount := req.amount, balanceAfter := newDestBalance,
                description := description, createdAt := db.now }
            let db3 := insertLedger db2 debitEntry
            let db4 := insertLedger db3 creditEntry
            let responseBody : ResponseBody :=
              { transactionId := txnId, sourceWalletId := sourceWalletId,
                destWalletId := destWalletId, amount := req.amount,
                newSourceBalance := newSourceBalance, newDestBalance := newDestBalance,
                description := description }
            let db5 :=
              if truthyKey req.idempotencyKey then
                insertIdem db4
                  { key := req.idempotencyKey.getD "", responseCode := 200,
                    responseBody := responseBody }
              else db4
            .ok ({ idempotent := false, statusCode := 200, body := responseBody }, db5)
        | _, _ => .error .walletRowMissing

/-- The catch clause of lines 183–188: on any thrown error the transaction
is rolled back (the database keeps its pre-call state) and the error is
re-thrown to the caller. -/
def runTransfer (req : TransferRequest) (txnId : String) (db : DB) :
    Except TransferError TransferResult × DB :=
  match executeTransfer req txnId db with
  | .ok (r, db') => (.ok r, db')
  | .error e => (.error e, db)

/-- WHERE clause of the history query (lines 261–267): the wallet of the entry
(inner `JOIN wallets`) belongs to the user, and matches the asset code
when one was supplied. -/
def historyPred (db : DB) (userId : Nat) (assetCode : Option String)
    (e : LedgerEntry) : Bool :=
  match findWallet db e.walletId with
  | some w =>
    w.userId == userId &&
      (match assetCode with
       | some a => w.assetCode == a
       | none => true)
  | none => false

/-- Comparator of `ORDER BY le.created_at DESC`. -/
def historyLe (e1 e2 : LedgerEntry) : Bool := decide (e2.createdAt ≤ e1.createdAt)

/-- Model of `getTransactions` (walletService.js lines 254–280): ledger entries of
the wallets of the user, optionally restricted to one asset, ordered by
`created_at DESC`, then `LIMIT limit OFFSET offset` (SQL applies the
offset before the limit).  Pure read: no database state is produced. -/
def getTransactions (db : DB) (userId : Nat) (assetCode : Option String)
    (limit offset : Nat) : List LedgerEntry :=
  (((db.ledger.filter (historyPred db userId assetCode)).mergeSort
      historyLe).drop offset).take limit

/-- The set of row locks a transfer takes: each involved wallet row is
locked once (Postgres takes a row lock once even when the two ids of
`lockOrder` coincide), in the ascending order of `lockOrder`. -/
def transferLocks (a b : Nat) : List Nat := if a = b then [a] else lockOrder a b

/-- Abstract model of one in-flight transfer for the concurrency protocol:
the ascending list of row locks it will take, and its atomic effect on the
wallet table, applied at commit while all locks are held. -/
structure LockTxn where
  locks : List Nat
  effect : List Wallet → List Wallet

/-- Global state of `n` concurrent transfers: how many locks each has
acquired, which have committed, the shared wallet table, and the commit
log. -/
structure LockState (n : Nat) where
  acquired : Fin n → Nat
  done : Fin n → Bool
  wallets : List Wallet
  log : List (Fin n)

/-- Locks currently held by transfer `i` (all released at commit). -/
def heldLocks {n : Nat} (txns : Fin n → LockTxn) (s : LockState n) (i : Fin n) :
    List Nat :=
  if s.done i then [] else (txns i).locks.take (s.acquired i)

/-- The next lock transfer `i` is waiting to acquire, if any. -/
def wantedLock {n : Nat} (txns : Fin n → LockTxn) (s : LockState n) (i : Fin n) :
    Option Nat :=
  if s.done i then none else (txns i).locks.get? (s.acquired i)

/-- Interleaved execution: a transfer may acquire its next lock when no
other transfer holds it (`SELECT ... FOR UPDATE` blocks otherwise), and
commits atomically once it holds all its locks. -/
inductive LockStep {n : Nat} (txns : Fin n → LockTxn) :
    LockState n → LockState n → Prop where
  | acquire (s : LockState n) (i : Fin n) (l : Nat)
      (hw : wantedLock txns s i = some l)
      (hfree : ∀ j, l ∉ heldLocks txns s j) :
      LockStep txns s { s with acquired := Function.update s.acquired i (s.acquired i + 1) }
  | commit (s : LockState n) (i : Fin n)
      (hnd : s.done i = false)
      (hall : s.acquired i = (txns i).locks.length) :
      LockStep txns s
        { s with done := Function.update s.done i true,
                 wallets := (txns i).effect s.wallets,
                 log := s.log ++ [i] }

/-- Serial execution of the committed transfers in commit-log order. -/
def applyLog {n : Nat} (txns : Fin n → LockTxn) (log : List (Fin n))
    (w : List Wallet) : List Wallet :=
  log.foldl (fun acc i => (txns i).effect acc) w

/-- Initial state: no locks held, nothing committed. -/
def initState {n : Nat} (w : List Wallet) : LockState n :=
  { acquired := fun _ => 0, done := fun _ => false, wallets := w, log := [] }

/-- Execution invariant: no transfer has acquired more locks than it owns,
and the wallet table is the serial application of the commit log. -/
def LockInv {n : Nat} (txns : Fin n → LockTxn) (w : List Wallet) (s : LockState n) : Prop :=
  (∀ i, s.acquired i ≤ (txns i).locks.length) ∧ s.wallets = applyLog txns s.log w

/-- Did the call commit a fresh (non-replayed) transfer? -/
def committed (x : Except TransferError TransferResult × DB) : Bool :=
  match x.1 with
  | .ok r => !r.idempotent
  | .error _ => false

/-- The `newDestBalance` field of the body of a successful call. -/
def newDestOf (x : Except TransferError (TransferResult × DB)) : Int :=
  match x with
  | .ok (r, _) => r.body.newDestBalance
  | .error _ => 0

/-- Concrete two-owner population used by the closed witnesses. -/
def baseUsers : List User :=
  [{ id := 1, username := "alice", userType := "user" },
   { id := 2, username := "bank", userType := "system" }]

/-- Concrete database: one user wallet (1000 GC) and one treasury wallet
(500000 GC). -/
def baseDB : DB :=
  { users := baseUsers,
    wallets := [{ id := 1, userId := 1, assetCode := "GC", balance := 1000 },
                { id := 2, userId := 2, assetCode := "GC", balance := 500000 }],
    ledger := [], idempotencyKeys := [], now := 3, journal := [] }

/-- An older and a newer ledger entry on the user wallet, for the history
witness. -/
def demoEntryOld : LedgerEntry :=
  { transactionId := "a", walletId := 1, entryType := .CREDIT, amount := 10,
    balanceAfter := 110, description := "x", createdAt := 1 }

def demoEntryNew : LedgerEntry :=
  { transactionId := "b", walletId := 1, entryType := .DEBIT, amount := 5,
    balanceAfter := 105, description := "y", createdAt := 5 }

/-- Copy of `baseDB` with two ledger entries already recorded. -/
def demoDB : DB :=
  { baseDB with ledger := [demoEntryOld, demoEntryNew] }

/-- A stored response body for the replay witness. -/
def storedBody : ResponseBody :=
  { transactionId := "t0", sourceWalletId := 1, destWalletId := 2, amount := 200,
    newSourceBalance := 800, newDestBalance := 500200, description := "d" }

/-- A stored idempotency record for key k1. -/
def storedRec : IdemRecord :=
  { key := "k1", responseCode := 200, responseBody := storedBody }

/-- Copy of `baseDB` with the record for k1 already present. -/
def replayDB : DB :=
  { baseDB with idempotencyKeys := [storedRec] }

/-- User wallet holding one unit above 2⁵³: exposes the narrowing of the
post-debit balance. -/
def dbBig : DB :=
  { users := baseUsers,
    wallets := [{ id := 1, userId := 1, assetCode := "GC", balance := 2 ^ 53 + 2 },
                { id := 2, userId := 2, assetCode := "GC", balance := 0 }],
    ledger := [], idempotencyKeys := [], now := 0, journal := [] }

def reqBig : TransferRequest :=
  { flow := .spend, userId := 1, assetCode := "GC", amount := 1, idempotencyKey := none }

/-- Treasury wallet at exactly 2⁵³: exposes the narrowing of the
post-credit balance. -/
def dbEdge : DB :=
  { users := baseUsers,
    wallets := [{ id := 1, userId := 1, assetCode := "GC", balance := 1000 },
                { id := 2, userId := 2, assetCode := "GC", balance := 2 ^ 53 }],
    ledger := [], idempotencyKeys := [], now := 0, journal := [] }

def reqEdge : TransferRequest :=
  { flow := .spend, userId := 1, assetCode := "GC", amount := 1, idempotencyKey := none }

/-- Deployment in which the wallet of the caller is itself the treasury
wallet (the caller passes the id of the treasury owner), at the 2⁵³
boundary. -/
def dbSelfEdge : DB :=
  { users := [{ id := 7, username := "bank", userType := "system" }],
    wallets := [{ id := 3, userId := 7, assetCode := "GC", balance := 2 ^ 53 }],
    ledger := [], idempotencyKeys := [], now := 0, journal := [] }

def reqSelfEdge : TransferRequest :=
  { flow := .topup, userId := 7, assetCode := "GC", amount := 1, idempotencyKey := none }

/-- Same aliased deployment with a small balance, for the amended claim. -/
def dbSelf : DB :=
  { users := [{ id := 7, username := "bank", userType := "system" }],
    wallets := [{ id := 3, userId := 7, assetCode := "GC", balance := 100 }],
    ledger := [], idempotencyKeys := [], now := 0, journal := [] }

def reqSelf : TransferRequest :=
  { flow := .topup, userId := 7, assetCode := "GC", amount := 30, idempotencyKey := none }

/-- Witness request: spend of 200 with key w1. -/
def reqW1 : TransferRequest :=
  { flow := .spend, userId := 1, assetCode := "GC", amount := 200, idempotencyKey := some "w1" }

/-- Witness request: spend of 200 with the already-stored key k1. -/
def reqReplay : TransferRequest :=
  { flow := .spend, userId := 1, assetCode := "GC", amount := 200, idempotencyKey := some "k1" }

/-- Witness request: spend of 5000 with key k2 (exceeds the balance). -/
def reqK2 : TransferRequest :=
  { flow := .spend, userId := 1, assetCode := "GC", amount := 5000, idempotencyKey := some "k2" }

/-- Witness request: bonus of 50 with key k4. -/
def reqK4 : TransferRequest :=
  { flow := .bonus, userId := 1, assetCode := "GC", amount := 50, idempotencyKey := some "k4" }

/-- Witness request: top-up of 70 with no idempotency key. -/
def reqNoKey : TransferRequest :=
  { flow := .topup, userId := 1, assetCode := "GC", amount := 70, idempotencyKey := none }

/-- Witness request: spend of 100 with key k6. -/
def reqK6 : TransferRequest :=
  { flow := .spend, userId := 1, assetCode := "GC", amount := 100, idempotencyKey := some "k6" }

/-- Witness request: spend of 150 with key k7. -/
def reqK7 : TransferRequest :=
  { flow := .spend, userId := 1, assetCode := "GC", amount := 150, idempotencyKey := some "k7" }

/-- The user wallet row of `baseDB`. -/
def userWalletRow : Wallet := { id := 1, userId := 1, assetCode := "GC", balance := 1000 }

/-- The treasury wallet row of `baseDB`. -/
def treasuryWalletRow : Wallet := { id := 2, userId := 2, assetCode := "GC", balance := 500000 }

/-- The single wallet row of `dbSelf`. -/
def selfWalletRow : Wallet := { id := 3, userId := 7, assetCode := "GC", balance := 100 }

/-- The response body produced by a fresh (non-replayed) successful
transfer, as a function of the locked balances. -/
def freshBody (req : TransferRequest) (txnId : String) (sw dw : Nat) (sb dbal : Int) :
    ResponseBody :=
  { transactionId := txnId, sourceWalletId := sw, destWalletId := dw,
    amount := req.amount,
    newSourceBalance := jsNumber (sb - req.amount),
    newDestBalance := jsNumber (dbal + req.amount),
    description := req.flow.describe req.amount req.assetCode req.userId }

/-- The DEBIT ledger entry of a fresh successful transfer. -/
def freshDebit (req : TransferRequest) (txnId : String) (now : Nat) (sw : Nat) (sb : Int) :
    LedgerEntry :=
  { transactionId := txnId, walletId := sw, entryType := .DEBIT,
    amount := req.amount, balanceAfter := jsNumber (sb - req.amount),
    description := req.flow.describe req.amount req.assetCode req.userId,
    createdAt := now }

/-- The CREDIT ledger entry of a fresh successful transfer. -/
def freshCredit (req : TransferRequest) (txnId : String) (now : Nat) (dw : Nat) (dbal : Int) :
    LedgerEntry :=
  { transactionId := txnId, walletId := dw, entryType := .CREDIT,
    amount := req.amount, balanceAfter := jsNumber (dbal + req.amount),
    description := req.flow.describe req.amount req.assetCode req.userId,
    createdAt := now }

/-- The committed database state of a fresh successful transfer. -/
def freshDB (req : TransferRequest) (txnId : String) (db : DB) (sw dw : Nat) (sb dbal : Int) :
    DB :=
  let db4 :=
    insertLedger
      (insertLedger
        (updateBalance (updateBalance db sw (jsNumber (sb - req.amount))) dw
          (jsNumber (dbal + req.amount)))
        (freshDebit req txnId db.now sw sb))
      (freshCredit req txnId db.now dw dbal)
  if truthyKey req.idempotencyKey then
    insertIdem db4
      { key := req.idempotencyKey.getD "", responseCode := 200,
        responseBody := freshBody req txnId sw dw sb dbal }
  else db4

/-- Lookup lemma: `find?` commutes with a `filter` whose predicate is implied by the
search predicate. -/
theorem find?_filter_eq {α : Type} (l : List α) (p q : α → Bool)
    (h : ∀ a, q a = true → p a = true) :
    (l.filter p).find? q = l.find? q := by
  induction l with
  | nil => rfl
  | cons x xs ih =>
    by_cases hq : q x = true
    · rw [List.filter_cons, if_pos (h x hq)]
      rw [List.find?_cons_of_pos _ hq, List.find?_cons_of_pos _ hq]
    · rw [List.find?_cons_of_neg _ hq, List.filter_cons]
      by_cases hp : p x = true
      · rw [if_pos hp, List.find?_cons_of_neg _ hq, ih]
      · rw [if_neg hp, ih]

theorem contains_lockOrder_left (a b : Nat) : (lockOrder a b).contains a = true := by
  unfold lockOrder
  by_cases h : a ≤ b <;> simp [h]

theorem contains_lockOrder_right (a b : Nat) : (lockOrder a b).contains b = true := by
  unfold lockOrder
  by_cases h : a ≤ b <;> simp [h]

/-- The locked-rows `find` by source/dest id equals the plain wallet-table
lookup: the `WHERE id = ANY(walletIds)` filter is transparent to it. -/
theorem lockedFind_eq_findWallet (db : DB) (a b wid : Nat)
    (hmem : (lockOrder a b).contains wid = true) :
    (db.wallets.filter (fun w => (lockOrder a b).contains w.id)).find?
        (fun w => w.id == wid) = findWallet db wid := by
  unfold findWallet
  apply find?_filter_eq
  intro w hw
  have : w.id = wid := by simpa using hw
  rw [this]
  exact hmem

/-- Characterization of `executeTransfer` on the fresh-transfer path:
idempotency miss, both wallets resolved and locked, sufficient balance. -/
theorem executeTransfer_fresh
    (req : TransferRequest) (txnId : String) (db : DB)
    (uw tw sw dw : Nat) (ws wd : Wallet)
    (hkey : (if truthyKey req.idempotencyKey then lookupIdem db (req.idempotencyKey.getD "") else none) = none)
    (hu : resolveWalletId db req.userId req.assetCode = .ok uw)
    (ht : resolveTreasuryWalletId db req.assetCode = .ok tw)
    (hdir : req.flow.direction uw tw = (sw, dw))
    (hs : findWallet db sw = some ws)
    (hd : findWallet db dw = some wd)
    (hok : ¬ ws.balance < req.amount) :
    executeTransfer req txnId db =
      .ok ({ idempotent := false, statusCode := 200,
             body := freshBody req txnId sw dw ws.balance wd.balance },
           freshDB req txnId db sw dw ws.balance wd.balance) := by
  unfold executeTransfer
  rw [hkey, hu, ht]
  dsimp only
  rw [hdir]
  dsimp only
  rw [lockedFind_eq_findWallet db sw dw sw (contains_lockOrder_left sw dw),
    lockedFind_eq_findWallet db sw dw dw (contains_lockOrder_right sw dw), hs, hd]
  dsimp only
  rw [if_neg hok]
  rfl

theorem roundToDouble_eq_self {n : Nat} (h : n ≤ 2 ^ 53) : roundToDouble n = n := by
  unfold roundToDouble
  rw [if_pos h]

/-- Integers of magnitude at most 2⁵³ survive the `Number(bigint)`
narrowing unchanged. -/
theorem jsNumber_eq_self {n : Int} (h : n.natAbs ≤ 2 ^ 53) : jsNumber n = n := by
  unfold jsNumber
  by_cases hn : n < 0
  · rw [if_pos hn, roundToDouble_eq_self h]
    omega
  · rw [if_neg hn, roundToDouble_eq_self h]
    omega

theorem jsNumber_nonneg {n : Int} (h : 0 ≤ n) : 0 ≤ jsNumber n := by
  unfold jsNumber
  rw [if_neg (not_lt.mpr h)]
  exact Int.natCast_nonneg _

/-- Row update `UPDATE ... WHERE id = wid` preserves every wallet id. -/
theorem updateRow_id (wid : Nat) (v : Int) (w : Wallet) :
    ((if w.id == wid then { w with balance := v } else w) : Wallet).id = w.id := by
  by_cases h : w.id == wid <;> simp [h]

theorem findWallet_updateBalance_self (db : DB) (wid : Nat) (v : Int) :
    findWallet (updateBalance db wid v) wid =
      (findWallet db wid).map (fun w => { w with balance := v }) := by
  unfold findWallet updateBalance
  simp only [List.find?_map]
  have hpf : ((fun w : Wallet => w.id == wid) ∘
      (fun w => if w.id == wid then { w with balance := v } else w)) =
      (fun w : Wallet => w.id == wid) := by
    funext w
    simp only [Function.comp_apply, updateRow_id]
  rw [hpf]
  cases hf : db.wallets.find? (fun w => w.id == wid) with
  | none => rfl
  | some w =>
    have hw : w.id = wid := by simpa using List.find?_some hf
    simp [hw]

theorem findWallet_updateBalance_ne (db : DB) (wid wid' : Nat) (v : Int)
    (hne : wid' ≠ wid) :
    findWallet (updateBalance db wid v) wid' = findWallet db wid' := by
  unfold findWallet updateBalance
  simp only [List.find?_map]
  have hpf : ((fun w : Wallet => w.id == wid') ∘
      (fun w => if w.id == wid then { w with balance := v } else w)) =
      (fun w : Wallet => w.id == wid') := by
    funext w
    simp only [Function.comp_apply, updateRow_id]
  rw [hpf]
  cases hf : db.wallets.find? (fun w => w.id == wid') with
  | none => rfl
  | some w =>
    have hw : w.id = wid' := by simpa using List.find?_some hf
    simp [hw, hne]

theorem findWallet_insertLedger (db : DB) (e : LedgerEntry) (wid : Nat) :
    findWallet (insertLedger db e) wid = findWallet db wid := rfl

theorem findWallet_insertIdem (db : DB) (r : IdemRecord) (wid : Nat) :
    findWallet (insertIdem db r) wid = findWallet db wid := rfl

theorem findWallet_congr {db1 db2 : DB} (h : db1.wallets = db2.wallets) (wid : Nat) :
    findWallet db1 wid = findWallet db2 wid := by
  unfold findWallet
  rw [h]

theorem freshDB_wallets (req : TransferRequest) (txnId : String) (db : DB)
    (sw dw : Nat) (sb dbal : Int) :
    (freshDB req txnId db sw dw sb dbal).wallets =
      (updateBalance (updateBalance db sw (jsNumber (sb - req.amount))) dw
        (jsNumber (dbal + req.amount))).wallets := by
  unfold freshDB
  by_cases h : truthyKey req.idempotencyKey <;> simp [h, insertIdem, insertLedger]

theorem freshDB_ledger (req : TransferRequest) (txnId : String) (db : DB)
    (sw dw : Nat) (sb dbal : Int) :
    (freshDB req txnId db sw dw sb dbal).ledger =
      db.ledger ++ [freshDebit req txnId db.now sw sb, freshCredit req txnId db.now dw dbal] := by
  unfold freshDB
  by_cases h : truthyKey req.idempotencyKey <;>
    simp [h, insertIdem, insertLedger, updateBalance]

theorem freshDB_idempotencyKeys (req : TransferRequest) (txnId : String) (db : DB)
    (sw dw : Nat) (sb dbal : Int) :
    (freshDB req txnId db sw dw sb dbal).idempotencyKeys =
      db.idempotencyKeys ++
        (if truthyKey req.idempotencyKey then
          [({ key := req.idempotencyKey.getD "", responseCode := 200,
              responseBody := freshBody req txnId sw dw sb dbal } : IdemRecord)]
        else []) := by
  unfold freshDB
  by_cases h : truthyKey req.idempotencyKey <;>
    simp [h, insertIdem, insertLedger, updateBalance]

theorem freshDB_journal (req : TransferRequest) (txnId : String) (db : DB)
    (sw dw : Nat) (sb dbal : Int) :
    (freshDB req txnId db sw dw sb dbal).journal =
      db.journal ++
        [WriteOp.updateBalance sw (jsNumber (sb - req.amount)),
         WriteOp.updateBalance dw (jsNumber (dbal + req.amount)),
         WriteOp.insertLedger (freshDebit req txnId db.now sw sb),
         WriteOp.insertLedger (freshCredit req txnId db.now dw dbal)] ++
        (if truthyKey req.idempotencyKey then
          [WriteOp.insertIdem
            { key := req.idempotencyKey.getD "", responseCode := 200,
              responseBody := freshBody req txnId sw dw sb dbal }]
        else []) := by
  unfold freshDB
  by_cases h : truthyKey req.idempotencyKey <;>
    simp [h, insertIdem, insertLedger, updateBalance]

theorem freshDB_users (req : TransferRequest) (txnId : String) (db : DB)
    (sw dw : Nat) (sb dbal : Int) :
    (freshDB req txnId db sw dw sb dbal).users = db.users := by
  unfold freshDB
  by_cases h : truthyKey req.idempotencyKey <;>
    simp [h, insertIdem, insertLedger, updateBalance]

/-- Post-commit balance of the source wallet (distinct-wallet case). -/
theorem balanceOf_freshDB_left (req : TransferRequest) (txnId : String) (db : DB)
    (sw dw : Nat) (sb dbal : Int) (ws : Wallet)
    (hne : sw ≠ dw) (hs : findWallet db sw = some ws) :
    balanceOf (freshDB req txnId db sw dw sb dbal) sw =
      some (jsNumber (sb - req.amount)) := by
  unfold balanceOf
  rw [findWallet_congr (freshDB_wallets req txnId db sw dw sb dbal) sw,
    findWallet_updateBalance_ne _ dw sw _ hne, findWallet_updateBalance_self, hs]
  rfl

/-- Post-commit balance of the destination wallet (distinct-wallet case). -/
theorem balanceOf_freshDB_right (req : TransferRequest) (txnId : String) (db : DB)
    (sw dw : Nat) (sb dbal : Int) (wd : Wallet)
    (hd : findWallet db dw = some wd) :
    balanceOf (freshDB req txnId db sw dw sb dbal) dw =
      some (jsNumber (dbal + req.amount)) := by
  unfold balanceOf
  rw [findWallet_congr (freshDB_wallets req txnId db sw dw sb dbal) dw,
    findWallet_updateBalance_self]
  cases hf : findWallet (updateBalance db sw (jsNumber (sb - req.amount))) dw with
  | none =>
    exfalso
    by_cases hsd : dw = sw
    · subst hsd
      rw [findWallet_updateBalance_self, hd] at hf
      simp at hf
    · rw [findWallet_updateBalance_ne _ _ _ _ hsd, hd] at hf
      simp at hf
  | some w => rfl

/-- The insufficient-balance path of `executeTransfer`: idempotency miss,
wallets resolved and locked, but `balance(source) < amount`. -/
theorem executeTransfer_insufficient
    (req : TransferRequest) (txnId : String) (db : DB)
    (uw tw sw dw : Nat) (ws wd : Wallet)
    (hkey : (if truthyKey req.idempotencyKey then lookupIdem db (req.idempotencyKey.getD "") else none) = none)
    (hu : resolveWalletId db req.userId req.assetCode = .ok uw)
    (ht : resolveTreasuryWalletId db req.assetCode = .ok tw)
    (hdir : req.flow.direction uw tw = (sw, dw))
    (hs : findWallet db sw = some ws)
    (hd : findWallet db dw = some wd)
    (hlt : ws.balance < req.amount) :
    executeTransfer req txnId db =
      .error (.insufficientBalance ws.balance req.amount) := by
  unfold executeTransfer
  rw [hkey, hu, ht]
  dsimp only
  rw [hdir]
  dsimp only
  rw [lockedFind_eq_findWallet db sw dw sw (contains_lockOrder_left sw dw),
    lockedFind_eq_findWallet db sw dw dw (contains_lockOrder_right sw dw), hs, hd]
  dsimp only
  rw [if_pos hlt]

/-- C1 (amended): a committed fresh transfer of a positive amount between
two distinct wallets conserves `balance(source) + balance(dest)` and
leaves `balance(source) ≥ 0`, provided the post-transfer balances lie in
the exactly-representable double range (|·| ≤ 2⁵³).  Outside that range
the `Number(bigint)` narrowing of the write-back breaks conservation: see
`sum_not_conserved_at_large_balance`. -/
theorem transfer_conserves_sum_within_safe_range
    (req : TransferRequest) (txnId : String) (db : DB)
    (uw tw sw dw : Nat) (ws wd : Wallet)
    (hkey : (if truthyKey req.idempotencyKey then lookupIdem db (req.idempotencyKey.getD "") else none) = none)
    (hu : resolveWalletId db req.userId req.assetCode = .ok uw)
    (ht : resolveTreasuryWalletId db req.assetCode = .ok tw)
    (hdir : req.flow.direction uw tw = (sw, dw))
    (hs : findWallet db sw = some ws)
    (hd : findWallet db dw = some wd)
    (hne : sw ≠ dw)
    (hamt : 0 < req.amount)
    (hok : ¬ ws.balance < req.amount)
    (hr1 : (ws.balance - req.amount).natAbs ≤ 2 ^ 53)
    (hr2 : (wd.balance + req.amount).natAbs ≤ 2 ^ 53) :
    runTransfer req txnId db =
      (.ok { idempotent := false, statusCode := 200,
             body := freshBody req txnId sw dw ws.balance wd.balance },
       freshDB req txnId db sw dw ws.balance wd.balance) ∧
    balanceOf db sw = some ws.balance ∧
    balanceOf db dw = some wd.balance ∧
    balanceOf (freshDB req txnId db sw dw ws.balance wd.balance) sw =
      some (ws.balance - req.amount) ∧
    balanceOf (freshDB req txnId db sw dw ws.balance wd.balance) dw =
      some (wd.balance + req.amount) ∧
    (ws.balance - req.amount) + (wd.balance + req.amount) = ws.balance + wd.balance ∧
    0 ≤ ws.balance - req.amount := by
  have hmain := executeTransfer_fresh req txnId db uw tw sw dw ws wd hkey hu ht hdir hs hd hok
  refine ⟨?_, ?_, ?_, ?_, ?_, by ring, by omega⟩
  · unfold runTransfer
    rw [hmain]
  · unfold balanceOf
    rw [hs]
    rfl
  · unfold balanceOf
    rw [hd]
    rfl
  · rw [balanceOf_freshDB_left req txnId db sw dw ws.balance wd.balance ws hne hs,
      jsNumber_eq_self hr1]
  · rw [balanceOf_freshDB_right req txnId db sw dw ws.balance wd.balance wd hd,
      jsNumber_eq_self hr2]

/-- C1 witness: spend of 200 from wallet 1 (1000 GC) to the treasury
wallet 2 (500000 GC) conserves the sum and leaves the source at 800. -/
theorem transfer_conserves_sum_witness :
    balanceOf (freshDB reqW1 "tw1" baseDB 1 2 1000 500000) 1 = some 800 ∧
    balanceOf (freshDB reqW1 "tw1" baseDB 1 2 1000 500000) 2 = some 500200 ∧
    (800 : Int) + 500200 = 1000 + 500000 := by
  have h := transfer_conserves_sum_within_safe_range reqW1 "tw1" baseDB 1 2 1 2
    userWalletRow treasuryWalletRow
    (by decide) rfl rfl rfl rfl rfl (by decide) (by decide) (by decide)
    (by decide) (by decide)
  exact ⟨h.2.2.2.1, h.2.2.2.2.1, by decide⟩

/-- C1 counterexample: with source balance 2⁵³ + 2 a committed spend of 1
leaves the two balances summing to 2⁵³ + 1, not 2⁵³ + 2 — the claimed
conservation equation fails on the code as written. -/
theorem sum_not_conserved_at_large_balance :
    committed (runTransfer reqBig "t1" dbBig) = true ∧
    balanceOf dbBig 1 = some (2 ^ 53 + 2) ∧
    balanceOf dbBig 2 = some 0 ∧
    balanceOf (runTransfer reqBig "t1" dbBig).2 1 = some (2 ^ 53) ∧
    balanceOf (runTransfer reqBig "t1" dbBig).2 2 = some 1 ∧
    (2 ^ 53 + 1 : Int) ≠ 2 ^ 53 + 2 := by decide

/-- C2: a transfer call whose idempotency key is already stored returns
the stored result flagged `idempotent = true` and leaves the database —
wallets, ledger, idempotency store, write journal — exactly as it was, so
replaying the same request any number of times yields the identical
response body each time and performs no balance mutation, ledger append,
or idempotency-record write. -/
theorem replay_returns_stored_result
    (req : TransferRequest) (txnId : String) (db : DB) (k : String) (recd : IdemRecord)
    (hk : req.idempotencyKey = some k) (hne : ¬ k = "")
    (hfound : lookupIdem db k = some recd) :
    executeTransfer req txnId db = .ok (replayResult recd, db) ∧
    (replayResult recd).idempotent = true ∧
    (replayResult recd).body = recd.responseBody := by
  have htk : truthyKey (some k) = true := by simp [truthyKey, hne]
  refine ⟨?_, rfl, rfl⟩
  unfold executeTransfer
  rw [hk, if_pos htk, Option.getD_some, hfound]

/-- C2 witness: replaying key k1 against `replayDB` returns the stored
record and the unchanged database. -/
theorem replay_returns_stored_result_witness :
    executeTransfer reqReplay "t9" replayDB = .ok (replayResult storedRec, replayDB) :=
  (replay_returns_stored_result reqReplay "t9" replayDB "k1" storedRec rfl (by decide) rfl).1

/-- C3: when the locked source balance is below the requested amount the
call fails with InsufficientBalance (status 400) and the returned database
is the untouched pre-call state; and, generally, every error thrown inside
the atomic scope is surfaced unchanged with the pre-call state (the
catch/ROLLBACK path). -/
theorem insufficient_balance_rolls_back
    (req : TransferRequest) (txnId : String) (db : DB)
    (uw tw sw dw : Nat) (ws wd : Wallet)
    (hkey : (if truthyKey req.idempotencyKey then lookupIdem db (req.idempotencyKey.getD "") else none) = none)
    (hu : resolveWalletId db req.userId req.assetCode = .ok uw)
    (ht : resolveTreasuryWalletId db req.assetCode = .ok tw)
    (hdir : req.flow.direction uw tw = (sw, dw))
    (hs : findWallet db sw = some ws)
    (hd : findWallet db dw = some wd)
    (hlt : ws.balance < req.amount) :
    runTransfer req txnId db =
      (.error (.insufficientBalance ws.balance req.amount), db) ∧
    (TransferError.insufficientBalance ws.balance req.amount).statusCode = 400 ∧
    (∀ (req2 : TransferRequest) (t2 : String) (db2 : DB) (e : TransferError),
      executeTransfer req2 t2 db2 = .error e →
        runTransfer req2 t2 db2 = (.error e, db2)) := by
  refine ⟨?_, rfl, ?_⟩
  · unfold runTransfer
    rw [executeTransfer_insufficient req txnId db uw tw sw dw ws wd hkey hu ht hdir hs hd hlt]
  · intro req2 t2 db2 e h
    unfold runTransfer
    rw [h]

/-- C3 witness: a spend of 5000 against a balance of 1000 fails with
InsufficientBalance and returns the pre-call database. -/
theorem insufficient_balance_rolls_back_witness :
    runTransfer reqK2 "t1" baseDB = (.error (.insufficientBalance 1000 5000), baseDB) :=
  (insufficient_balance_rolls_back reqK2 "t1" baseDB 1 2 1 2
    userWalletRow treasuryWalletRow
    (by decide) rfl rfl rfl rfl rfl (by decide)).1

/-- C4: a committed fresh transfer appends exactly two ledger entries
sharing the (fresh) transaction id — one DEBIT on the source and one
CREDIT on the destination, both of the transfer amount, each carrying the
post-mutation balance of its own wallet — and the journal shows both
balance UPDATEs issued before either ledger INSERT. -/
theorem ledger_double_entry
    (req : TransferRequest) (txnId : String) (db : DB)
    (uw tw sw dw : Nat) (ws wd : Wallet)
    (hkey : (if truthyKey req.idempotencyKey then lookupIdem db (req.idempotencyKey.getD "") else none) = none)
    (hu : resolveWalletId db req.userId req.assetCode = .ok uw)
    (ht : resolveTreasuryWalletId db req.assetCode = .ok tw)
    (hdir : req.flow.direction uw tw = (sw, dw))
    (hs : findWallet db sw = some ws)
    (hd : findWallet db dw = some wd)
    (hne : sw ≠ dw)
    (hok : ¬ ws.balance < req.amount)
    (htx : txnId ∉ db.ledger.map (fun e => e.transactionId)) :
    runTransfer req txnId db =
      (.ok { idempotent := false, statusCode := 200,
             body := freshBody req txnId sw dw ws.balance wd.balance },
       freshDB req txnId db sw dw ws.balance wd.balance) ∧
    (freshDB req txnId db sw dw ws.balance wd.balance).ledger =
      db.ledger ++ [freshDebit req txnId db.now sw ws.balance,
                    freshCredit req txnId db.now dw wd.balance] ∧
    (freshDB req txnId db sw dw ws.balance wd.balance).ledger.filter
        (fun e => e.transactionId == txnId) =
      [freshDebit req txnId db.now sw ws.balance,
       freshCredit req txnId db.now dw wd.balance] ∧
    (freshDebit req txnId db.now sw ws.balance).entryType = .DEBIT ∧
    (freshCredit req txnId db.now dw wd.balance).entryType = .CREDIT ∧
    (freshDebit req txnId db.now sw ws.balance).walletId = sw ∧
    (freshCredit req txnId db.now dw wd.balance).walletId = dw ∧
    (freshDebit req txnId db.now sw ws.balance).amount = req.amount ∧
    (freshCredit req txnId db.now dw wd.balance).amount = req.amount ∧
    balanceOf (freshDB req txnId db sw dw ws.balance wd.balance) sw =
      some (freshDebit req txnId db.now sw ws.balance).balanceAfter ∧
    balanceOf (freshDB req txnId db sw dw ws.balance wd.balance) dw =
      some (freshCredit req txnId db.now dw wd.balance).balanceAfter ∧
    (freshDB req txnId db sw dw ws.balance wd.balance).journal =
      db.journal ++
        [WriteOp.updateBalance sw (jsNumber (ws.balance - req.amount)),
         WriteOp.updateBalance dw (jsNumber (wd.balance + req.amount)),
         WriteOp.insertLedger (freshDebit req txnId db.now sw ws.balance),
         WriteOp.insertLedger (freshCredit req txnId db.now dw wd.balance)] ++
        (if truthyKey req.idempotencyKey then
          [WriteOp.insertIdem
            { key := req.idempotencyKey.getD "", responseCode := 200,
              responseBody := freshBody req txnId sw dw ws.balance wd.balance }]
        else []) := by
  have hmain := executeTransfer_fresh req txnId db uw tw sw dw ws wd hkey hu ht hdir hs hd hok
  refine ⟨?_, freshDB_ledger req txnId db sw dw ws.balance wd.balance, ?_, rfl, rfl, rfl, rfl,
    rfl, rfl, ?_, ?_, freshDB_journal req txnId db sw dw ws.balance wd.balance⟩
  · unfold runTransfer
    rw [hmain]
  · rw [freshDB_ledger req txnId db sw dw ws.balance wd.balance, List.filter_append]
    have hnil : db.ledger.filter (fun e => e.transactionId == txnId) = [] := by
      rw [List.filter_eq_nil_iff]
      intro e he hbeq
      exact htx (List.mem_map.mpr ⟨e, he, by simpa using hbeq⟩)
    rw [hnil]
    simp [freshDebit, freshCredit]
  · exact balanceOf_freshDB_left req txnId db sw dw ws.balance wd.balance ws hne hs
  · exact balanceOf_freshDB_right req txnId db sw dw ws.balance wd.balance wd hd

/-- C4 witness: the spend of 150 with key k7 appends exactly its DEBIT and
CREDIT entries to the empty ledger of `baseDB`. -/
theorem ledger_double_entry_witness :
    (freshDB reqK7 "tw7" baseDB 1 2 1000 500000).ledger =
      baseDB.ledger ++ [freshDebit reqK7 "tw7" 3 1 1000, freshCredit reqK7 "tw7" 3 2 500000] :=
  (ledger_double_entry reqK7 "tw7" baseDB 1 2 1 2 userWalletRow treasuryWalletRow
    (by decide) rfl rfl rfl rfl rfl (by decide) (by decide) (by decide)).2.1

/-- C5 counterexample: crediting amount 1 to a destination balance of 2⁵³
computes, stores and returns 2⁵³ — not the exact 2⁵³ + 1 — because the new
balance is narrowed through an IEEE-754 double (`Number(...)`) before the
write-back, so the arithmetic is not exact for every int64-representable
balance. -/
theorem narrowing_breaks_exact_arithmetic :
    balanceOf dbEdge 2 = some (2 ^ 53) ∧
    reqEdge.amount = 1 ∧
    committed (runTransfer reqEdge "t" dbEdge) = true ∧
    newDestOf (executeTransfer reqEdge "t" dbEdge) = 2 ^ 53 ∧
    (2 ^ 53 : Int) ≠ 2 ^ 53 + 1 := by decide

/-- C5 (amended): the balance comparison is exact wide-integer arithmetic
(the failure criterion is exactly `balance(source) < amount` on the exact
integers), and the computed new balances equal the exact integer results
`source − amount` and `dest + amount` whenever those results lie in the
double-exact range |·| ≤ 2⁵³. -/
theorem balance_arithmetic_exact_within_double_range
    (req : TransferRequest) (txnId : String) (db : DB)
    (uw tw sw dw : Nat) (ws wd : Wallet)
    (hkey : (if truthyKey req.idempotencyKey then lookupIdem db (req.idempotencyKey.getD "") else none) = none)
    (hu : resolveWalletId db req.userId req.assetCode = .ok uw)
    (ht : resolveTreasuryWalletId db req.assetCode = .ok tw)
    (hdir : req.flow.direction uw tw = (sw, dw))
    (hs : findWallet db sw = some ws)
    (hd : findWallet db dw = some wd)
    (hr1 : (ws.balance - req.amount).natAbs ≤ 2 ^ 53)
    (hr2 : (wd.balance + req.amount).natAbs ≤ 2 ^ 53) :
    (ws.balance < req.amount →
      runTransfer req txnId db =
        (.error (.insufficientBalance ws.balance req.amount), db)) ∧
    (¬ ws.balance < req.amount →
      (freshBody req txnId sw dw ws.balance wd.balance).newSourceBalance =
        ws.balance - req.amount ∧
      (freshBody req txnId sw dw ws.balance wd.balance).newDestBalance =
        wd.balance + req.amount ∧
      runTransfer req txnId db =
        (.ok { idempotent := false, statusCode := 200,
               body := freshBody req txnId sw dw ws.balance wd.balance },
         freshDB req txnId db sw dw ws.balance wd.balance)) := by
  constructor
  · intro hlt
    unfold runTransfer
    rw [executeTransfer_insufficient req txnId db uw tw sw dw ws wd hkey hu ht hdir hs hd hlt]
  · intro hok
    refine ⟨jsNumber_eq_self hr1, jsNumber_eq_self hr2, ?_⟩
    unfold runTransfer
    rw [executeTransfer_fresh req txnId db uw tw sw dw ws wd hkey hu ht hdir hs hd hok]

/-- C5 witness: the bonus of 50 computes exactly 500000 − 50 and
1000 + 50. -/
theorem balance_arithmetic_exact_witness :
    (freshBody reqK4 "tw4" 2 1 500000 1000).newSourceBalance = 500000 - 50 ∧
    (freshBody reqK4 "tw4" 2 1 500000 1000).newDestBalance = 1000 + 50 := by
  have h := balance_arithmetic_exact_within_double_range reqK4 "tw4" baseDB 1 2 2 1
    treasuryWalletRow userWalletRow
    (by decide) rfl rfl rfl rfl rfl (by decide) (by decide)
  exact ⟨(h.2 (by decide)).1, (h.2 (by decide)).2.1⟩

/-- C6: a first-time (non-replayed) successful transfer with a present,
non-empty idempotency key returns a body holding exactly the transaction
id, both wallet ids, the amount, both post-mutation balances and the
description, and the idempotency store afterwards maps the key to exactly
that returned body with status 200. -/
theorem fresh_body_stored_under_key
    (req : TransferRequest) (txnId : String) (db : DB)
    (uw tw sw dw : Nat) (ws wd : Wallet) (k : String)
    (hk : req.idempotencyKey = some k) (hkne : ¬ k = "")
    (hmiss : lookupIdem db k = none)
    (hu : resolveWalletId db req.userId req.assetCode = .ok uw)
    (ht : resolveTreasuryWalletId db req.assetCode = .ok tw)
    (hdir : req.flow.direction uw tw = (sw, dw))
    (hs : findWallet db sw = some ws)
    (hd : findWallet db dw = some wd)
    (hok : ¬ ws.balance < req.amount) :
    executeTransfer req txnId db =
      .ok ({ idempotent := false, statusCode := 200,
             body := freshBody req txnId sw dw ws.balance wd.balance },
           freshDB req txnId db sw dw ws.balance wd.balance) ∧
    freshBody req txnId sw dw ws.balance wd.balance =
      { transactionId := txnId, sourceWalletId := sw, destWalletId := dw,
        amount := req.amount,
        newSourceBalance := jsNumber (ws.balance - req.amount),
        newDestBalance := jsNumber (wd.balance + req.amount),
        description := req.flow.describe req.amount req.assetCode req.userId } ∧
    lookupIdem (freshDB req txnId db sw dw ws.balance wd.balance) k =
      some { key := k, responseCode := 200,
             responseBody := freshBody req txnId sw dw ws.balance wd.balance } := by
  have htk : truthyKey (some k) = true := by simp [truthyKey, hkne]
  have hkey : (if truthyKey req.idempotencyKey then lookupIdem db (req.idempotencyKey.getD "") else none) = none := by
    rw [hk, if_pos htk, Option.getD_some, hmiss]
  refine ⟨executeTransfer_fresh req txnId db uw tw sw dw ws wd hkey hu ht hdir hs hd hok,
    rfl, ?_⟩
  unfold lookupIdem at hmiss ⊢
  rw [freshDB_idempotencyKeys, hk, if_pos htk, Option.getD_some, List.find?_append, hmiss]
  simp

/-- C6 witness: the spend of 100 under key k6 stores exactly the returned
body. -/
theorem fresh_body_stored_under_key_witness :
    lookupIdem (freshDB reqK6 "tw6" baseDB 1 2 1000 500000) "k6" =
      some { key := "k6", responseCode := 200,
             responseBody := freshBody reqK6 "tw6" 1 2 1000 500000 } :=
  (fresh_body_stored_under_key reqK6 "tw6" baseDB 1 2 1 2 userWalletRow treasuryWalletRow
    "k6" rfl (by decide) rfl rfl rfl rfl rfl rfl (by decide)).2.2

/-- C9 (amended): when the wallet of the caller and the treasury wallet resolve
to the same wallet id, every flow commits for any amount up to the
balance, and — because the destination update is computed from the
pre-transfer balance and written last — the final balance is the
pre-transfer balance plus the amount (exactly so within the double-exact
range), so value is created rather than conserved. -/
theorem self_transfer_adds_amount
    (req : TransferRequest) (txnId : String) (db : DB) (w : Nat) (ww : Wallet)
    (hkey : (if truthyKey req.idempotencyKey then lookupIdem db (req.idempotencyKey.getD "") else none) = none)
    (hu : resolveWalletId db req.userId req.assetCode = .ok w)
    (ht : resolveTreasuryWalletId db req.assetCode = .ok w)
    (hw : findWallet db w = some ww)
    (hok : ¬ ww.balance < req.amount)
    (hr : (ww.balance + req.amount).natAbs ≤ 2 ^ 53) :
    runTransfer req txnId db =
      (.ok { idempotent := false, statusCode := 200,
             body := freshBody req txnId w w ww.balance ww.balance },
       freshDB req txnId db w w ww.balance ww.balance) ∧
    balanceOf db w = some ww.balance ∧
    balanceOf (freshDB req txnId db w w ww.balance ww.balance) w =
      some (ww.balance + req.amount) := by
  have hdir : req.flow.direction w w = (w, w) := by cases req.flow <;> rfl
  have hmain := executeTransfer_fresh req txnId db w w w w ww ww hkey hu ht hdir hw hw hok
  refine ⟨?_, ?_, ?_⟩
  · unfold runTransfer
    rw [hmain]
  · unfold balanceOf
    rw [hw]
    rfl
  · rw [balanceOf_freshDB_right req txnId db w w ww.balance ww.balance ww hw,
      jsNumber_eq_self hr]

/-- C9 witness: the treasury owner topping itself up by 30 from balance
100 commits and ends at 130 — the amount is created out of thin air. -/
theorem self_transfer_adds_amount_witness :
    balanceOf (freshDB reqSelf "tws" dbSelf 3 3 100 100) 3 = some 130 :=
  (self_transfer_adds_amount reqSelf "tws" dbSelf 3 selfWalletRow
    (by decide) rfl rfl rfl (by decide) (by decide)).2.2

/-- C9 counterexample to the claim as stated: at the 2⁵³ boundary the
self-transfer still commits but the final balance equals the pre-transfer
balance (the credited unit is lost to double rounding), not pre + amount. -/
theorem self_transfer_boundary_counterexample :
    committed (runTransfer reqSelfEdge "t" dbSelfEdge) = true ∧
    reqSelfEdge.amount = 1 ∧
    balanceOf dbSelfEdge 3 = some (2 ^ 53) ∧
    balanceOf (runTransfer reqSelfEdge "t" dbSelfEdge).2 3 = some (2 ^ 53) ∧
    (2 ^ 53 : Int) ≠ 2 ^ 53 + 1 := by decide

theorem resolveWalletId_congrW {db1 db2 : DB} (h : db1.wallets = db2.wallets)
    (u : Nat) (a : String) :
    resolveWalletId db1 u a = resolveWalletId db2 u a := by
  unfold resolveWalletId
  rw [h]

theorem resolveTreasuryWalletId_congrW {db1 db2 : DB}
    (hw : db1.wallets = db2.wallets) (hu : db1.users = db2.users) (a : String) :
    resolveTreasuryWalletId db1 a = resolveTreasuryWalletId db2 a := by
  unfold resolveTreasuryWalletId isSystemUser
  rw [hw, hu]

/-- Balance updates do not disturb wallet resolution: ids, owners and
asset codes are untouched. -/
theorem resolveWalletId_updateBalance (db : DB) (wid : Nat) (v : Int)
    (u : Nat) (a : String) :
    resolveWalletId (updateBalance db wid v) u a = resolveWalletId db u a := by
  unfold resolveWalletId updateBalance
  simp only [List.find?_map]
  have hpf : ((fun w : Wallet => w.userId == u && w.assetCode == a) ∘
      (fun w => if w.id == wid then { w with balance := v } else w)) =
      (fun w : Wallet => w.userId == u && w.assetCode == a) := by
    funext w
    by_cases h : w.id = wid <;> simp [h]
  rw [hpf]
  cases hf : db.wallets.find? (fun w => w.userId == u && w.assetCode == a) with
  | none => rfl
  | some w =>
    by_cases h : w.id = wid <;> simp [h]

theorem resolveTreasuryWalletId_updateBalance (db : DB) (wid : Nat) (v : Int)
    (a : String) :
    resolveTreasuryWalletId (updateBalance db wid v) a =
      resolveTreasuryWalletId db a := by
  unfold resolveTreasuryWalletId updateBalance isSystemUser
  simp only [List.find?_map]
  have hpf : ((fun w : Wallet => db.users.any (fun us => us.id == w.userId && us.userType == "system") && w.assetCode == a) ∘
      (fun w => if w.id == wid then { w with balance := v } else w)) =
      (fun w : Wallet => db.users.any (fun us => us.id == w.userId && us.userType == "system") && w.assetCode == a) := by
    funext w
    by_cases h : w.id = wid <;> simp [h]
  rw [hpf]
  cases hf : db.wallets.find? (fun w : Wallet => db.users.any (fun us => us.id == w.userId && us.userType == "system") && w.assetCode == a) with
  | none => rfl
  | some w =>
    by_cases h : w.id = wid <;> simp [h]

theorem resolveWalletId_freshDB (req : TransferRequest) (txnId : String) (db : DB)
    (sw dw : Nat) (sb dbal : Int) (u : Nat) (a : String) :
    resolveWalletId (freshDB req txnId db sw dw sb dbal) u a =
      resolveWalletId db u a := by
  rw [resolveWalletId_congrW (freshDB_wallets req txnId db sw dw sb dbal) u a,
    resolveWalletId_updateBalance, resolveWalletId_updateBalance]

theorem resolveTreasuryWalletId_freshDB (req : TransferRequest) (txnId : String)
    (db : DB) (sw dw : Nat) (sb dbal : Int) (a : String) :
    resolveTreasuryWalletId (freshDB req txnId db sw dw sb dbal) a =
      resolveTreasuryWalletId db a := by
  have hu : (freshDB req txnId db sw dw sb dbal).users =
      (updateBalance (updateBalance db sw (jsNumber (sb - req.amount))) dw
        (jsNumber (dbal + req.amount))).users := by
    rw [freshDB_users]
    rfl
  rw [resolveTreasuryWalletId_congrW (freshDB_wallets req txnId db sw dw sb dbal) hu a,
    resolveTreasuryWalletId_updateBalance, resolveTreasuryWalletId_updateBalance]

/-- The full source-wallet row after a distinct-wallet commit. -/
theorem findWallet_freshDB_left (req : TransferRequest) (txnId : String) (db : DB)
    (sw dw : Nat) (sb dbal : Int) (ws : Wallet)
    (hne : sw ≠ dw) (hs : findWallet db sw = some ws) :
    findWallet (freshDB req txnId db sw dw sb dbal) sw =
      some { ws with balance := jsNumber (sb - req.amount) } := by
  rw [findWallet_congr (freshDB_wallets req txnId db sw dw sb dbal) sw,
    findWallet_updateBalance_ne _ dw sw _ hne, findWallet_updateBalance_self, hs]
  rfl

/-- The full destination-wallet row after a distinct-wallet commit. -/
theorem findWallet_freshDB_right (req : TransferRequest) (txnId : String) (db : DB)
    (sw dw : Nat) (sb dbal : Int) (wd : Wallet)
    (hne : sw ≠ dw) (hd : findWallet db dw = some wd) :
    findWallet (freshDB req txnId db sw dw sb dbal) dw =
      some { wd with balance := jsNumber (dbal + req.amount) } := by
  rw [findWallet_congr (freshDB_wallets req txnId db sw dw sb dbal) dw,
    findWallet_updateBalance_self, findWallet_updateBalance_ne _ sw dw _ (Ne.symm hne), hd]
  rfl

/-- C10: with an absent or empty `idempotencyKey` (JavaScript-falsy) both
the idempotency lookup and the idempotency write are skipped: a successful
call mutates the balances yet leaves the idempotency store untouched, and
repeating the identical request applies the transfer again — after two
calls the source is down by twice the amount, the destination up by twice
the amount, and still no idempotency record exists. -/
theorem missing_key_skips_idempotency
    (req : TransferRequest) (t1 t2 : String) (db : DB)
    (uw tw sw dw : Nat) (ws wd : Wallet)
    (hfalsy : truthyKey req.idempotencyKey = false)
    (hu : resolveWalletId db req.userId req.assetCode = .ok uw)
    (ht : resolveTreasuryWalletId db req.assetCode = .ok tw)
    (hdir : req.flow.direction uw tw = (sw, dw))
    (hs : findWallet db sw = some ws)
    (hd : findWallet db dw = some wd)
    (hne : sw ≠ dw)
    (hamt : 0 ≤ req.amount)
    (hok2 : 2 * req.amount ≤ ws.balance)
    (hwd : 0 ≤ wd.balance)
    (hbs : ws.balance.natAbs ≤ 2 ^ 53)
    (hbd : (wd.balance + 2 * req.amount).natAbs ≤ 2 ^ 53) :
    runTransfer req t1 db =
      (.ok { idempotent := false, statusCode := 200,
             body := freshBody req t1 sw dw ws.balance wd.balance },
       freshDB req t1 db sw dw ws.balance wd.balance) ∧
    (freshDB req t1 db sw dw ws.balance wd.balance).idempotencyKeys =
      db.idempotencyKeys ∧
    runTransfer req t2 (freshDB req t1 db sw dw ws.balance wd.balance) =
      (.ok { idempotent := false, statusCode := 200,
             body := freshBody req t2 sw dw (ws.balance - req.amount) (wd.balance + req.amount) },
       freshDB req t2 (freshDB req t1 db sw dw ws.balance wd.balance) sw dw
         (ws.balance - req.amount) (wd.balance + req.amount)) ∧
    (freshDB req t2 (freshDB req t1 db sw dw ws.balance wd.balance) sw dw
      (ws.balance - req.amount) (wd.balance + req.amount)).idempotencyKeys =
      db.idempotencyKeys ∧
    balanceOf (freshDB req t2 (freshDB req t1 db sw dw ws.balance wd.balance) sw dw
      (ws.balance - req.amount) (wd.balance + req.amount)) sw =
      some (ws.balance - 2 * req.amount) ∧
    balanceOf (freshDB req t2 (freshDB req t1 db sw dw ws.balance wd.balance) sw dw
      (ws.balance - req.amount) (wd.balance + req.amount)) dw =
      some (wd.balance + 2 * req.amount) := by
  have hkey1 : ∀ (d : DB), (if truthyKey req.idempotencyKey then lookupIdem d (req.idempotencyKey.getD "") else none) = none := by
    intro d
    rw [hfalsy]
    simp
  have hok1 : ¬ ws.balance < req.amount := by omega
  have hr1 : (ws.balance - req.amount).natAbs ≤ 2 ^ 53 := by omega
  have hr2 : (wd.balance + req.amount).natAbs ≤ 2 ^ 53 := by omega
  have hr3 : (ws.balance - req.amount - req.amount).natAbs ≤ 2 ^ 53 := by omega
  have hr4 : (wd.balance + req.amount + req.amount).natAbs ≤ 2 ^ 53 := by omega
  have hmain1 := executeTransfer_fresh req t1 db uw tw sw dw ws wd (hkey1 db) hu ht hdir hs hd hok1
  have hs1 : findWallet (freshDB req t1 db sw dw ws.balance wd.balance) sw =
      some { ws with balance := ws.balance - req.amount } := by
    rw [findWallet_freshDB_left req t1 db sw dw ws.balance wd.balance ws hne hs,
      jsNumber_eq_self hr1]
  have hd1 : findWallet (freshDB req t1 db sw dw ws.balance wd.balance) dw =
      some { wd with balance := wd.balance + req.amount } := by
    rw [findWallet_freshDB_right req t1 db sw dw ws.balance wd.balance wd hne hd,
      jsNumber_eq_self hr2]
  have hu1 : resolveWalletId (freshDB req t1 db sw dw ws.balance wd.balance)
      req.userId req.assetCode = .ok uw := by
    rw [resolveWalletId_freshDB]
    exact hu
  have ht1 : resolveTreasuryWalletId (freshDB req t1 db sw dw ws.balance wd.balance)
      req.assetCode = .ok tw := by
    rw [resolveTreasuryWalletId_freshDB]
    exact ht
  have hok1b : ¬ ({ ws with balance := ws.balance - req.amount } : Wallet).balance < req.amount := by
    simp only
    omega
  have hmain2 := executeTransfer_fresh req t2 (freshDB req t1 db sw dw ws.balance wd.balance)
    uw tw sw dw { ws with balance := ws.balance - req.amount }
    { wd with balance := wd.balance + req.amount }
    (hkey1 _) hu1 ht1 hdir hs1 hd1 hok1b
  refine ⟨?_, ?_, ?_, ?_, ?_, ?_⟩
  · unfold runTransfer
    rw [hmain1]
  · rw [freshDB_idempotencyKeys, hfalsy]
    simp
  · unfold runTransfer
    rw [hmain2]
  · rw [freshDB_idempotencyKeys, hfalsy]
    simp only [Bool.false_eq_true, if_false, List.append_nil]
    rw [freshDB_idempotencyKeys, hfalsy]
    simp
  · rw [balanceOf_freshDB_left req t2 (freshDB req t1 db sw dw ws.balance wd.balance)
      sw dw (ws.balance - req.amount) (wd.balance + req.amount)
      { ws with balance := ws.balance - req.amount } hne hs1,
      jsNumber_eq_self hr3]
    congr 1
    ring
  · rw [balanceOf_freshDB_right req t2 (freshDB req t1 db sw dw ws.balance wd.balance)
      sw dw (ws.balance - req.amount) (wd.balance + req.amount)
      { wd with balance := wd.balance + req.amount } hd1,
      jsNumber_eq_self hr4]
    congr 1
    ring

/-- C10 witness: two keyless top-ups of 70 against `baseDB` leave the
treasury down 140 with no idempotency record ever written. -/
theorem missing_key_skips_idempotency_witness :
    balanceOf (freshDB reqNoKey "t2" (freshDB reqNoKey "t1" baseDB 2 1 500000 1000) 2 1
      (500000 - 70) (1000 + 70)) 2 = some (500000 - 2 * 70) :=
  (missing_key_skips_idempotency reqNoKey "t1" "t2" baseDB 1 2 2 1
    treasuryWalletRow userWalletRow
    rfl rfl rfl rfl rfl rfl (by decide) (by decide) (by decide) (by decide)
    (by decide) (by decide)).2.2.2.2.1

/-- In a strictly ascending lock list, every already-held lock (an element
of the `take`-prefix) is below the next lock to be requested. -/
theorem lt_of_mem_take_of_pairwise {l : List Nat} (hp : List.Pairwise (· < ·) l)
    {k : Nat} (hk : k < l.length) {x : Nat} (hx : x ∈ l.take k) :
    x < l.get ⟨k, hk⟩ := by
  obtain ⟨⟨i, hi⟩, hget⟩ := List.mem_iff_get.mp hx
  have hik : i < k := by
    have h1 := hi
    rw [List.length_take] at h1
    omega
  have hil : i < l.length := by
    have h1 := hi
    rw [List.length_take] at h1
    omega
  have hgeq : (l.take k).get ⟨i, hi⟩ = l.get ⟨i, hil⟩ := (List.get_take l hil hik).symm
  rw [hgeq] at hget
  subst hget
  exact List.pairwise_iff_get.mp hp ⟨i, hil⟩ ⟨k, hk⟩ hik

theorem lockInv_init {n : Nat} (txns : Fin n → LockTxn) (w : List Wallet) :
    LockInv txns w (initState w) :=
  ⟨fun _ => Nat.zero_le _, rfl⟩

theorem lockInv_step {n : Nat} {txns : Fin n → LockTxn} {w : List Wallet}
    {s s' : LockState n} (hinv : LockInv txns w s) (hstep : LockStep txns s s') :
    LockInv txns w s' := by
  obtain ⟨hacq, hser⟩ := hinv
  cases hstep with
  | acquire i l hw hfree =>
    refine ⟨fun j => ?_, hser⟩
    dsimp only
    by_cases hji : j = i
    · subst hji
      rw [Function.update_same]
      unfold wantedLock at hw
      by_cases hdone : s.done j = true
      · rw [if_pos hdone] at hw
        exact absurd hw (by simp)
      · rw [if_neg hdone] at hw
        by_contra hgt
        rw [List.get?_eq_none.mpr (by omega)] at hw
        exact absurd hw (by simp)
    · rw [Function.update_noteq hji]
      exact hacq j
  | commit i hnd hall =>
    refine ⟨fun j => hacq j, ?_⟩
    show (txns i).effect s.wallets = applyLog txns (s.log ++ [i]) w
    rw [hser]
    unfold applyLog
    rw [List.foldl_append]
    rfl

/-- Every state reachable from the initial state satisfies the execution
invariant. -/
theorem lockInv_reachable {n : Nat} {txns : Fin n → LockTxn} {w : List Wallet}
    {s : LockState n}
    (h : Relation.ReflTransGen (LockStep txns) (initState w) s) :
    LockInv txns w s := by
  induction h with
  | refl => exact lockInv_init txns w
  | tail hab hbc ih => exact lockInv_step ih hbc

/-- Deadlock-freedom: when every transfer acquires its locks in strictly
ascending order, any state with an uncommitted transfer has an enabled
step — the wait-for relation can never close a cycle, because along it the
requested lock value strictly increases. -/
theorem lock_progress {n : Nat} (txns : Fin n → LockTxn)
    (hsorted : ∀ i, List.Pairwise (· < ·) (txns i).locks)
    (s : LockState n)
    (hacq : ∀ i, s.acquired i ≤ (txns i).locks.length)
    (hbusy : ∃ i, s.done i = false) :
    ∃ s', LockStep txns s s' := by
  classical
  by_cases hc : ∃ i, s.done i = false ∧ s.acquired i = (txns i).locks.length
  · obtain ⟨i, hnd, hall⟩ := hc
    exact ⟨_, LockStep.commit s i hnd hall⟩
  · push_neg at hc
    have hlt : ∀ i, s.done i = false → s.acquired i < (txns i).locks.length :=
      fun i hi => lt_of_le_of_ne (hacq i) (hc i hi)
    set f : Fin n → Nat := fun i => ((txns i).locks.get? (s.acquired i)).getD 0 with hf
    have hwant : ∀ i, s.done i = false → wantedLock txns s i = some (f i) := by
      intro i hi
      have hfi : f i = (txns i).locks.get ⟨s.acquired i, hlt i hi⟩ := by
        show ((txns i).locks.get? (s.acquired i)).getD 0 = _
        rw [List.get?_eq_get (hlt i hi), Option.getD_some]
      unfold wantedLock
      rw [if_neg (by simp [hi]), List.get?_eq_get (hlt i hi), hfi]
    by_cases hfree : ∃ i, s.done i = false ∧ ∀ j, f i ∉ heldLocks txns s j
    · obtain ⟨i, hi, hnotheld⟩ := hfree
      exact ⟨_, LockStep.acquire s i (f i) (hwant i hi) hnotheld⟩
    · exfalso
      push_neg at hfree
      obtain ⟨i0, hi0⟩ := hbusy
      obtain ⟨i, hiB, himax⟩ :=
        Finset.exists_max_image (Finset.univ.filter (fun i => s.done i = false)) f
          ⟨i0, by simp [hi0]⟩
      have hiD : s.done i = false := by simpa using hiB
      obtain ⟨j, hj⟩ := hfree i hiD
      have hjD : s.done j = false := by
        by_contra hdj
        unfold heldLocks at hj
        rw [if_pos (by simpa using hdj)] at hj
        exact absurd hj (List.not_mem_nil _)
      unfold heldLocks at hj
      rw [if_neg (by simp [hjD])] at hj
      have hjlt := hlt j hjD
      have hlow : f i < (txns j).locks.get ⟨s.acquired j, hjlt⟩ :=
        lt_of_mem_take_of_pairwise (hsorted j) hjlt hj
      have hfj : f j = (txns j).locks.get ⟨s.acquired j, hjlt⟩ := by
        show ((txns j).locks.get? (s.acquired j)).getD 0 = _
        rw [List.get?_eq_get hjlt, Option.getD_some]
      have hle : f j ≤ f i := himax j (by simp [hjD])
      omega

/-- C7: the lock list of every transfer (`lockOrder`) is the two wallet ids in
ascending order; the de-duplicated lock set is strictly ascending; and in
the lock-acquisition model, from any reachable state of N concurrent
transfers with ascending lock lists, an uncommitted transfer always leaves
an enabled step (no deadlock) and the wallet table always equals the
serial application of the committed transfers in commit order. -/
theorem lock_ordering_prevents_deadlock :
    (∀ a b : Nat, List.Chain' (· ≤ ·) (lockOrder a b) ∧
      a ∈ lockOrder a b ∧ b ∈ lockOrder a b) ∧
    (∀ a b : Nat, List.Pairwise (· < ·) (transferLocks a b)) ∧
    (∀ (n : Nat) (txns : Fin n → LockTxn) (w : List Wallet) (s : LockState n),
      (∀ i, List.Pairwise (· < ·) (txns i).locks) →
      Relation.ReflTransGen (LockStep txns) (initState w) s →
      ((∃ i, s.done i = false) → ∃ s', LockStep txns s s') ∧
      s.wallets = applyLog txns s.log w) := by
  refine ⟨?_, ?_, ?_⟩
  · intro a b
    unfold lockOrder
    by_cases h : a ≤ b <;> simp [h] <;> omega
  · intro a b
    unfold transferLocks lockOrder
    by_cases hab : a = b
    · simp [hab]
    · rw [if_neg hab]
      by_cases h : a ≤ b
      · rw [if_pos h]
        simp [List.pairwise_cons]
        omega
      · rw [if_neg h]
        simp [List.pairwise_cons]
        omega
  · intro n txns w s hsorted hreach
    have hinv := lockInv_reachable hreach
    exact ⟨fun hbusy => lock_progress txns hsorted s hinv.1 hbusy, hinv.2⟩

/-- C7 witness: a single transfer over locks [1, 2] starting fresh has an
enabled step and the untouched wallet table. -/
theorem lock_ordering_prevents_deadlock_witness :
    ((∃ i : Fin 1, (initState (n := 1) ([] : List Wallet)).done i = false) →
      ∃ s', LockStep (fun _ : Fin 1 => { locks := [1, 2], effect := id })
        (initState ([] : List Wallet)) s') ∧
    (initState (n := 1) ([] : List Wallet)).wallets =
      applyLog (fun _ : Fin 1 => { locks := [1, 2], effect := id })
        (initState (n := 1) ([] : List Wallet)).log ([] : List Wallet) :=
  lock_ordering_prevents_deadlock.2.2 1
    (fun _ : Fin 1 => { locks := [1, 2], effect := id }) ([] : List Wallet)
    (initState ([] : List Wallet))
    (fun _ => by simp [List.pairwise_cons])
    Relation.ReflTransGen.refl

/-- C8: the history read returns the ledger entries of the owner (restricted to
the supplied asset when one is given) sorted newest-first, and at most
`limit` of them after skipping `offset`; being a projection of the state
it performs no mutation. -/
theorem history_newest_first_paginated
    (db : DB) (userId : Nat) (assetCode : Option String) (limit offset : Nat) :
    List.Sorted (fun e1 e2 : LedgerEntry => e2.createdAt ≤ e1.createdAt)
      (getTransactions db userId assetCode limit offset) ∧
    getTransactions db userId assetCode limit offset =
      (((db.ledger.filter (historyPred db userId assetCode)).mergeSort
          historyLe).drop offset).take limit ∧
    (getTransactions db userId assetCode limit offset).length ≤ limit ∧
    (∀ e ∈ getTransactions db userId assetCode limit offset,
      e ∈ db.ledger ∧
      ∃ w, findWallet db e.walletId = some w ∧ w.userId = userId ∧
        ∀ a, assetCode = some a → w.assetCode = a) := by
  have htrans : ∀ a b c : LedgerEntry,
      historyLe a b = true → historyLe b c = true → historyLe a c = true := by
    intro a b c hab hbc
    simp only [historyLe, decide_eq_true_eq] at hab hbc ⊢
    omega
  have htotal : ∀ a b : LedgerEntry, (historyLe a b || historyLe b a) = true := by
    intro a b
    simp only [historyLe, decide_eq_true_eq, Bool.or_eq_true]
    omega
  have hsub : List.Sublist
      ((((db.ledger.filter (historyPred db userId assetCode)).mergeSort
        historyLe).drop offset).take limit)
      ((db.ledger.filter (historyPred db userId assetCode)).mergeSort historyLe) :=
    (List.take_sublist _ _).trans (List.drop_sublist _ _)
  refine ⟨?_, rfl, ?_, ?_⟩
  · have hsor := @List.sorted_mergeSort _ historyLe htrans htotal
      (db.ledger.filter (historyPred db userId assetCode))
    have hsor2 : List.Pairwise (fun e1 e2 : LedgerEntry => e2.createdAt ≤ e1.createdAt)
        ((db.ledger.filter (historyPred db userId assetCode)).mergeSort historyLe) :=
      hsor.imp (fun h => by simpa [historyLe] using h)
    exact List.Pairwise.sublist hsub hsor2
  · unfold getTransactions
    rw [List.length_take]
    exact min_le_left _ _
  · intro e he
    have h1 : e ∈ (db.ledger.filter (historyPred db userId assetCode)).mergeSort historyLe :=
      hsub.mem he
    have h2 : e ∈ db.ledger.filter (historyPred db userId assetCode) :=
      (List.mergeSort_perm _ historyLe).subset h1
    obtain ⟨hmem, hpe⟩ := List.mem_filter.mp h2
    refine ⟨hmem, ?_⟩
    unfold historyPred at hpe
    cases hw : findWallet db e.walletId with
    | none =>
      rw [hw] at hpe
      exact absurd hpe (by simp)
    | some w =>
      rw [hw] at hpe
      dsimp only at hpe
      cases hac : assetCode with
      | none =>
        rw [hac] at hpe
        simp only [Bool.and_true, beq_iff_eq] at hpe
        exact ⟨w, rfl, hpe, fun a ha => by cases ha⟩
      | some a =>
        rw [hac] at hpe
        simp only [Bool.and_eq_true, beq_iff_eq] at hpe
        refine ⟨w, rfl, hpe.1, fun a2 ha2 => ?_⟩
        cases ha2
        exact hpe.2

/-- C8 witness: against `demoDB` the two entries come back newest-first
with no filter applied. -/
theorem history_newest_first_paginated_witness :
    List.Sorted (fun e1 e2 : LedgerEntry => e2.createdAt ≤ e1.createdAt)
      (getTransactions demoDB 1 none 2 0) ∧
    getTransactions demoDB 1 none 2 0 =
      (((demoDB.ledger.filter (historyPred demoDB 1 none)).mergeSort
          historyLe).drop 0).take 2 ∧
    (getTransactions demoDB 1 none 2 0).length ≤ 2 ∧
    (∀ e ∈ getTransactions demoDB 1 none 2 0,
      e ∈ demoDB.ledger ∧
      ∃ w, findWallet demoDB e.walletId = some w ∧ w.userId = 1 ∧
        ∀ a, (none : Option String) = some a → w.assetCode = a) :=
  history_newest_first_paginated demoDB 1 none 2 0

end DinoWallet
